import Mathlib

/-!
# FileFoundry deduplication storage engine — shallow embedding

This file embeds the content-addressable deduplication engine of the
FileFoundry repository (`src/backend/internal/handlers/file.go`, data model in
`src/backend/internal/models/models.go`) and proves properties of it.

Modelling conventions:
* File content is a list of byte values (`List Nat`).
* The SHA-256 digest (`calculateContentHash`) is modelled as an abstract
  deterministic function `hashFn : Content → Digest`; determinism is the only
  property the engine relies on.
* UUIDs (`uuid.New()`) are modelled as fresh natural numbers drawn from a
  counter `nextId` carried in the state.
* The database tables (`file_hashes`, `files`, `users`) are association lists;
  GORM queries (`Where(...).First`) become `List.find?`, updates become `map`,
  deletes become `filter`, exactly mirroring the Go call sites.
* The filesystem (`os.WriteFile`, `os.Stat`, `c.File`) is a path-keyed list of
  entries; `os.WriteFile` replaces any entry at the path or appends a new one.
* The GORM transaction in `UploadFile` is modelled by reverting the database
  (but not the disk, which is outside the transaction) when a step fails,
  exactly as `tx.Rollback()` behaves in the handler.
* Fallible steps that depend on the environment (creating the `files` row in
  `processFileUpload`) take an explicit `recordOk : Bool` success flag.
-/

namespace FileFoundry

/-- Raw file content: a sequence of byte values. -/
abbrev Content := List Nat

/-- Content digest (hex string of SHA-256 in the source). -/
abbrev Digest := String

/-- Row of the `file_hashes` table (`models.FileHash`): one unique content
blob with its reference count. -/
structure FileHash where
  id : Nat
  hash : Digest
  size : Int
  storagePath : String
  referenceCount : Int
deriving DecidableEq

/-- Row of the `files` table (`models.File`), restricted to the fields the
engine reads: a logical user-visible file referencing a blob. -/
structure FileRec where
  id : Nat
  size : Int
  fileHashID : Nat
  ownerID : Nat
  isDeleted : Bool
deriving DecidableEq

/-- Storage-accounting fields of a `models.User` row. -/
structure UserAcct where
  storageQuota : Int
  storageUsed : Int
  totalUploadedBytes : Int
  actualStorageBytes : Int
  savedBytes : Int
deriving DecidableEq

/-- The database state: the three tables the engine touches. -/
structure DB where
  hashes : List FileHash
  files : List FileRec
  users : List (Nat × UserAcct)
deriving DecidableEq

/-- The blob store: a path-keyed list of physical file contents. -/
structure Disk where
  entries : List (String × Content)
deriving DecidableEq

/-- Whole-system state: database, physical disk, and the UUID counter. -/
structure State where
  db : DB
  disk : Disk
  nextId : Nat
deriving DecidableEq

/-- Storage path for a digest: `fmt.Sprintf("storage/%s", hash)`. -/
def storagePathFor (h : Digest) : String := "storage/" ++ h

/-- Path join, modelling `filepath.Join(root, p)`. -/
def pathJoin (root p : String) : String := root ++ "/" ++ p

/-- Modelling `os.WriteFile p c`: replace the entry at `p` or create it. -/
def Disk.write (d : Disk) (p : String) (c : Content) : Disk :=
  ⟨d.entries.filter (fun e => ¬ e.1 == p) ++ [(p, c)]⟩

/-- All physical entries stored at path `p`. -/
def entriesAt (d : Disk) (p : String) : List (String × Content) :=
  d.entries.filter (fun e => e.1 == p)

/-- Modelling `os.Stat` success: some entry exists at path `p`. -/
def diskHas (d : Disk) (p : String) : Bool :=
  d.entries.any (fun e => e.1 == p)

/-- `tx.First(&user, "id = ?", userID)`. -/
def lookupUser (us : List (Nat × UserAcct)) (uid : Nat) : Option UserAcct :=
  (us.find? (fun p => p.1 == uid)).map (fun p => p.2)

/-- `tx.Save(&user)` / `tx.Model(&user).Updates(...)`: replace the row. -/
def updateUser (us : List (Nat × UserAcct)) (uid : Nat) (u : UserAcct) :
    List (Nat × UserAcct) :=
  us.map (fun p => if p.1 == uid then (p.1, u) else p)

/-- `tx.Where("hash = ?", h).First(&existingHash)`. -/
def findHashByDigest (hs : List FileHash) (h : Digest) : Option FileHash :=
  hs.find? (fun r => r.hash == h)

/-- `h.db.Where("id = ?", i).First(&fileHash)`. -/
def findHashById (hs : List FileHash) (i : Nat) : Option FileHash :=
  hs.find? (fun r => r.id == i)

/-- `tx.Model(&existingHash).Update("reference_count", reference_count + 1)`:
an in-place increment of the row with the given primary key. -/
def bumpRefCountById (hs : List FileHash) (i : Nat) : List FileHash :=
  hs.map (fun r =>
    if r.id == i then { r with referenceCount := r.referenceCount + 1 } else r)

/-- `tx.Model(&fileHash).Update("reference_count", newRefCount)`. -/
def setRefCountById (hs : List FileHash) (i : Nat) (v : Int) : List FileHash :=
  hs.map (fun r => if r.id == i then { r with referenceCount := v } else r)

/-- Compensation in `processFileUpload`: `tx.Model(&models.FileHash{}).Where
("hash = ?", h).Update("reference_count", reference_count - 1)`. -/
def decRefCountByHash (hs : List FileHash) (h : Digest) : List FileHash :=
  hs.map (fun r =>
    if r.hash == h then { r with referenceCount := r.referenceCount - 1 } else r)

/-- `tx.Delete(&fileHash)`: remove the row(s) with the given primary key. -/
def removeHashById (hs : List FileHash) (i : Nat) : List FileHash :=
  hs.filter (fun r => ¬ r.id == i)

/-- `h.db.Where("id = ? AND owner_id = ? AND is_deleted = false", fid, uid)
.First(&file)`. -/
def findLiveFile (fs : List FileRec) (fid uid : Nat) : Option FileRec :=
  fs.find? (fun f => f.id == fid && f.ownerID == uid && !f.isDeleted)

/-- `tx.Model(&file).Updates({"is_deleted": true, ...})`. -/
def markFileDeleted (fs : List FileRec) (fid : Nat) : List FileRec :=
  fs.map (fun f => if f.id == fid then { f with isDeleted := true } else f)

/-- Per-file entry of the JSON result built in `processFileUpload`. -/
structure UploadResult where
  fileId : Nat
  isDuplicate : Bool
  savedBytes : Int
deriving DecidableEq

/-- Result of `processFileUpload` inside the transaction: either the updated
transaction state with the result row and the `(savedBytes,
actualStorageUsed)` pair, or the failure-time transaction state. -/
inductive ProcResult where
  | ok (st : State) (res : UploadResult) (savedBytes actualStorageUsed : Int)
  | err (st : State)
deriving DecidableEq

/-- Translation of `processFileUpload` (file.go:328-422): deduplicating
single-file upload inside the transaction.  `recordOk` models whether
`tx.Create(&fileRecord)` succeeds. -/
def processFileUpload (hashFn : Content → Digest) (root : String) (st : State)
    (uid : Nat) (content : Content) (recordOk : Bool) : ProcResult :=
  let hsh := hashFn content
  let size : Int := (content.length : Int)
  -- deduplication lookup and branch (file.go:332-372)
  let branch : State × FileHash × Bool :=
    match findHashByDigest st.db.hashes hsh with
    | none =>
        -- new content: write the bytes, insert a row with referenceCount = 1
        let spath := storagePathFor hsh
        let row : FileHash :=
          { id := st.nextId, hash := hsh, size := size,
            storagePath := spath, referenceCount := 1 }
        ({ db := { st.db with hashes := st.db.hashes ++ [row] },
           disk := st.disk.write (pathJoin root spath) content,
           nextId := st.nextId + 1 }, row, true)
    | some row =>
        -- existing content: increment the reference count
        ({ st with
           db := { st.db with hashes := bumpRefCountById st.db.hashes row.id } },
         row, false)
  let st1 := branch.1
  let row := branch.2.1
  let isNewContent := branch.2.2
  if recordOk then
    -- create the file record (file.go:375-388)
    let fileRow : FileRec :=
      { id := st1.nextId, size := size, fileHashID := row.id,
        ownerID := uid, isDeleted := false }
    let st2 : State :=
      { st1 with db := { st1.db with files := st1.db.files ++ [fileRow] },
                 nextId := st1.nextId + 1 }
    let savedBytes : Int := if isNewContent then 0 else size
    let actualStorageUsed : Int := if isNewContent then size else 0
    .ok st2
      { fileId := fileRow.id, isDuplicate := !isNewContent,
        savedBytes := savedBytes }
      savedBytes actualStorageUsed
  else
    -- record creation failed: decrement only when the content was new
    -- (file.go:389-393); the physical bytes are not removed
    let st2 : State :=
      if isNewContent then
        { st1 with
          db := { st1.db with hashes := decRefCountByHash st1.db.hashes hsh } }
      else st1
    .err st2

/-- Outcome of the upload handler as seen by the caller. -/
inductive UploadOutcome where
  | userNotFound
  | quotaRejected
  | failed
  | ok (res : UploadResult)
deriving DecidableEq

/-- Translation of `UploadFile` (file.go:91-325) specialised to a single file:
quota check against the logical size, then `processFileUpload` and
`updateUserStorageStats` inside one transaction.  A failure rolls the
database back but leaves the disk as the failed attempt wrote it. -/
def uploadFile (hashFn : Content → Digest) (root : String) (st : State)
    (uid : Nat) (content : Content) (recordOk : Bool) : State × UploadOutcome :=
  match lookupUser st.db.users uid with
  | none => (st, .userNotFound)
  | some user =>
    let totalSize : Int := (content.length : Int)
    -- quota check (file.go:248): user.StorageUsed + totalSize > user.StorageQuota
    if user.storageQuota < user.storageUsed + totalSize then
      (st, .quotaRejected)
    else
      match processFileUpload hashFn root st uid content recordOk with
      | .err stErr =>
          -- tx.Rollback(): database changes undone, disk writes persist
          ({ db := st.db, disk := stErr.disk, nextId := stErr.nextId }, .failed)
      | .ok st2 res savedBytes actualStorageUsed =>
          -- updateUserStorageStats (file.go:425-442)
          match lookupUser st2.db.users uid with
          | none =>
              ({ db := st.db, disk := st2.disk, nextId := st2.nextId }, .failed)
          | some u2 =>
              let u3 : UserAcct :=
                { u2 with
                  totalUploadedBytes := u2.totalUploadedBytes + totalSize,
                  actualStorageBytes := u2.actualStorageBytes + actualStorageUsed,
                  storageUsed := u2.storageUsed + actualStorageUsed,
                  savedBytes := u2.savedBytes + savedBytes }
              ({ st2 with
                 db := { st2.db with users := updateUser st2.db.users uid u3 } },
               .ok res)

/-- Outcome of the delete handler. -/
inductive DeleteOutcome where
  | notFound
  | failed
  | ok (actualStorageFreed logicalStorageFreed : Int)
deriving DecidableEq

/-- Translation of `DeleteFile` (file.go:605-699): soft-delete the file row,
decrement the blob's reference count, drop the blob row when the new count is
`<= 0`, and adjust the owner's counters.  The physical bytes are never
touched. -/
def deleteFile (st : State) (uid : Nat) (fid : Nat) : State × DeleteOutcome :=
  match findLiveFile st.db.files fid uid with
  | none => (st, .notFound)
  | some file =>
    let files1 := markFileDeleted st.db.files file.id
    match findHashById st.db.hashes file.fileHashID with
    | none => (st, .failed)
    | some fileHash =>
      let newRefCount := fileHash.referenceCount - 1
      let hashes1 := setRefCountById st.db.hashes fileHash.id newRefCount
      let freed : Int := if newRefCount ≤ 0 then file.size else 0
      let hashes2 :=
        if newRefCount ≤ 0 then removeHashById hashes1 fileHash.id else hashes1
      match lookupUser st.db.users uid with
      | none => (st, .failed)
      | some user =>
        let user2 : UserAcct :=
          { user with
            storageUsed := user.storageUsed - file.size,
            actualStorageBytes := user.actualStorageBytes - freed }
        ({ st with
           db := { hashes := hashes2, files := files1,
                   users := updateUser st.db.users uid user2 } },
         .ok freed file.size)

/-- Outcome of `ViewFile`. -/
inductive ViewOutcome where
  | notFoundDB
  | hashMissing
  | notFoundDisk
  | served (path : String)
deriving DecidableEq

/-- Translation of `ViewFile` (file.go:518-602): serve from the canonical
digest-derived path, falling back to the legacy bare-identifier path, and
report not-found only when both are absent. -/
def viewFile (root : String) (st : State) (uid : Nat) (fid : Nat) : ViewOutcome :=
  match findLiveFile st.db.files fid uid with
  | none => .notFoundDB
  | some file =>
    match findHashById st.db.hashes file.fileHashID with
    | none => .hashMissing
    | some fileHash =>
      let filePath := pathJoin root fileHash.storagePath
      if diskHas st.disk filePath then .served filePath
      else
        let legacyFilePath := pathJoin root (toString file.id)
        if diskHas st.disk legacyFilePath then .served legacyFilePath
        else .notFoundDisk

/-- Translation of the remaining-storage computation in `GetUserStats`
(file.go:72-76). -/
def remainingStorage (user : UserAcct) : Int :=
  let r := user.storageQuota - user.storageUsed
  if r < 0 then 0 else r

/-! ## Derived notions used by the statements -/

/-- All blob rows recorded for a given digest. -/
def hashRowsFor (hs : List FileHash) (h : Digest) : List FileHash :=
  hs.filter (fun r => r.hash == h)

/-- Well-formedness of the UUID counter: every existing blob row carries an
identifier strictly below the next fresh one. -/
def IdsFresh (st : State) : Prop :=
  ∀ r ∈ st.db.hashes, r.id < st.nextId

/-- Invariant describing a deduplicated blob for content `b` with `n` live
references: exactly one row for its digest, carrying count `n` and the
content's size, the row's identifier unique in the table, and exactly one
physical copy of `b` at the digest-derived path. -/
def BlobInv (hashFn : Content → Digest) (root : String) (b : Content)
    (st : State) (n : Int) : Prop :=
  ∃ r : FileHash,
    hashRowsFor st.db.hashes (hashFn b) = [r] ∧
    r.referenceCount = n ∧
    r.size = (b.length : Int) ∧
    (∀ r2 ∈ st.db.hashes, r2.id = r.id → r2 = r) ∧
    entriesAt st.disk (pathJoin root (storagePathFor (hashFn b))) =
      [(pathJoin root (storagePathFor (hashFn b)), b)]

/-- Project the failure-time state out of a `ProcResult`. -/
def procErrState : ProcResult → Option State
  | .ok _ _ _ _ => none
  | .err st => some st

/-- Sequence of single-file uploads of the same content `b` by the listed
owners, each required to succeed. -/
def uploadManyOk (hashFn : Content → Digest) (root : String) (b : Content) :
    State → List Nat → Option State
  | st, [] => some st
  | st, uid :: rest =>
    match uploadFile hashFn root st uid b true with
    | (st2, .ok _) => uploadManyOk hashFn root b st2 rest
    | (_, .userNotFound) => none
    | (_, .quotaRejected) => none
    | (_, .failed) => none

/-! ## List helper lemmas -/

theorem find?_of_filter_eq_singleton {α : Type} (p : α → Bool) (r : α) :
    ∀ l : List α, l.filter p = [r] → l.find? p = some r := by
  intro l
  induction l with
  | nil => intro h; simp at h
  | cons a t ih =>
    intro h
    by_cases ha : p a
    · rw [List.filter_cons_of_pos ha] at h
      rw [List.find?_cons_of_pos _ ha]
      simpa using (List.cons.injEq _ _ _ _ ▸ congrArg id h).1 ▸ rfl
    · rw [List.filter_cons_of_neg (by simpa using ha)] at h
      rw [List.find?_cons_of_neg _ (by simpa using ha)]
      exact ih h

theorem filter_map_of_pred_inv {α : Type} (g : α → α) (p : α → Bool)
    (hp : ∀ x, p (g x) = p x) :
    ∀ l : List α, (l.map g).filter p = (l.filter p).map g := by
  intro l
  induction l with
  | nil => rfl
  | cons a t ih =>
    by_cases ha : p a
    · rw [List.map_cons, List.filter_cons_of_pos (by rw [hp]; exact ha),
        List.filter_cons_of_pos ha, List.map_cons, ih]
    · rw [List.map_cons, List.filter_cons_of_neg (by simp [hp, ha]),
        List.filter_cons_of_neg (by simpa using ha), ih]

theorem find?_map_of_pred_inv {α : Type} (g : α → α) (p : α → Bool)
    (hp : ∀ x, p (g x) = p x) :
    ∀ l : List α, (l.map g).find? p = (l.find? p).map g := by
  intro l
  induction l with
  | nil => rfl
  | cons a t ih =>
    by_cases ha : p a
    · rw [List.map_cons, List.find?_cons_of_pos _ (by rw [hp]; exact ha),
        List.find?_cons_of_pos _ ha]
      rfl
    · rw [List.map_cons, List.find?_cons_of_neg _ (by simp [hp, ha]),
        List.find?_cons_of_neg _ (by simpa using ha), ih]

theorem lookupUser_updateUser (us : List (Nat × UserAcct)) (uid : Nat)
    (u v : UserAcct) (h : lookupUser us uid = some v) :
    lookupUser (updateUser us uid u) uid = some u := by
  induction us with
  | nil => simp [lookupUser] at h
  | cons a t ih =>
    by_cases ha : a.1 == uid
    · unfold lookupUser updateUser
      rw [List.map_cons, if_pos ha, List.find?_cons_of_pos _ (by simpa using ha)]
      rfl
    · unfold lookupUser updateUser
      unfold lookupUser at h
      rw [List.find?_cons_of_neg _ (by simpa using ha)] at h
      rw [List.map_cons, if_neg ha, List.find?_cons_of_neg _ (by simpa using ha)]
      exact ih h

theorem entriesAt_write_self (d : Disk) (p : String) (c : Content) :
    entriesAt (d.write p c) p = [(p, c)] := by
  unfold entriesAt Disk.write
  rw [List.filter_append, List.filter_filter]
  simp

/-! ## Claim C10 -/

/-- C10: the storage-summary operation reports remaining storage as
`quota - used` clamped below at zero, hence never negative even when `used`
exceeds `quota`. -/
theorem remainingStorage_clamped (u : UserAcct) :
    remainingStorage u = max 0 (u.storageQuota - u.storageUsed) ∧
    0 ≤ remainingStorage u := by
  have hr : remainingStorage u =
      if u.storageQuota - u.storageUsed < 0 then 0
      else u.storageQuota - u.storageUsed := rfl
  constructor
  · rw [hr]
    rcases max_cases 0 (u.storageQuota - u.storageUsed) with ⟨h1, h2⟩ | ⟨h1, h2⟩ <;>
      rw [h1] <;> split <;> omega
  · rw [hr]
    split <;> omega

/-! ## Claim C9 -/

/-- C9: `ViewFile` serves the content from the canonical digest-derived path
when a file exists there; when the canonical path is absent it falls back to
the legacy path (the bare file identifier under the storage root); it reports
not-found exactly when the file is absent from both paths. -/
theorem viewFile_legacy_fallback (root : String) (st : State) (uid fid : Nat)
    (f : FileRec) (fh : FileHash)
    (hf : findLiveFile st.db.files fid uid = some f)
    (hh : findHashById st.db.hashes f.fileHashID = some fh) :
    (diskHas st.disk (pathJoin root fh.storagePath) = true →
      viewFile root st uid fid = .served (pathJoin root fh.storagePath)) ∧
    (diskHas st.disk (pathJoin root fh.storagePath) = false →
      diskHas st.disk (pathJoin root (toString f.id)) = true →
      viewFile root st uid fid = .served (pathJoin root (toString f.id))) ∧
    (viewFile root st uid fid = .notFoundDisk ↔
      diskHas st.disk (pathJoin root fh.storagePath) = false ∧
      diskHas st.disk (pathJoin root (toString f.id)) = false) := by
  unfold viewFile
  simp only [hf, hh]
  cases hc : diskHas st.disk (pathJoin root fh.storagePath) <;>
    cases hl : diskHas st.disk (pathJoin root (toString f.id)) <;>
      simp [hc, hl]

/-- Concrete state for exercising `ViewFile`: one stored file whose blob
lives at the canonical digest-derived path. -/
def stView : State :=
  { db := { hashes := [⟨0, "h", 2, "storage/h", 1⟩],
            files := [⟨1, 2, 0, 1, false⟩],
            users := [(1, ⟨100, 2, 2, 2, 0⟩)] },
    disk := ⟨[("rt/storage/h", [1, 2])]⟩, nextId := 2 }

theorem viewFile_legacy_fallback_witness :
    viewFile "rt" stView 1 1 = .served (pathJoin "rt" "storage/h") :=
  (viewFile_legacy_fallback "rt" stView 1 1 ⟨1, 2, 0, 1, false⟩
    ⟨0, "h", 2, "storage/h", 1⟩ (by decide) (by decide)).1 (by decide)

/-! ## Delete-path helper lemmas -/

theorem findHashById_removeHashById (hs : List FileHash) (i : Nat) :
    findHashById (removeHashById hs i) i = none := by
  unfold findHashById removeHashById
  refine List.find?_eq_none.mpr ?_
  intro r hr
  have h2 := (List.mem_filter.mp hr).2
  simpa using h2

theorem findHashById_setRefCountById (hs : List FileHash) (i : Nat) (v : Int)
    (j : Nat) :
    findHashById (setRefCountById hs i v) j =
      (findHashById hs j).map
        (fun r => if r.id == i then { r with referenceCount := v } else r) := by
  unfold findHashById setRefCountById
  exact find?_map_of_pred_inv _ _
    (fun x => by by_cases h : (x.id == i) = true <;> simp [h]) hs

theorem findHashById_key (hs : List FileHash) (i : Nat) (r : FileHash)
    (h : findHashById hs i = some r) : r.id = i := by
  have := List.find?_some h
  simpa using this

/-! ## Claim C4 -/

/-- C4 (amended): deleting a file whose blob has `referenceCount = 1`
beforehand removes the blob row and reports `bytesFreed` equal to the blob's
size, but the physical bytes are left untouched on disk. -/
theorem deleteFile_last_reference (st : State) (uid fid : Nat)
    (f : FileRec) (r : FileHash) (u : UserAcct)
    (hf : findLiveFile st.db.files fid uid = some f)
    (hr : findHashById st.db.hashes f.fileHashID = some r)
    (hrc : r.referenceCount = 1)
    (hsz : r.size = f.size)
    (hu : lookupUser st.db.users uid = some u) :
    (deleteFile st uid fid).2 = .ok r.size r.size ∧
    findHashById (deleteFile st uid fid).1.db.hashes f.fileHashID = none ∧
    (deleteFile st uid fid).1.disk = st.disk := by
  have hid : r.id = f.fileHashID := findHashById_key _ _ _ hr
  unfold deleteFile
  simp only [hf, hr, hu, hrc]
  have h10 : ((1 : Int) - 1 ≤ 0) := by norm_num
  rw [if_pos h10, if_pos h10, hsz]
  refine ⟨rfl, ?_, trivial⟩
  have := findHashById_removeHashById
    (setRefCountById st.db.hashes r.id (1 - 1)) r.id
  rw [← hid]
  exact this

/-- Concrete last-reference delete: one file, one blob with a single
reference, and the physical copy on disk. -/
def stDelLast : State :=
  { db := { hashes := [⟨0, "h", 2, "storage/h", 1⟩],
            files := [⟨1, 2, 0, 1, false⟩],
            users := [(1, ⟨100, 2, 2, 2, 0⟩)] },
    disk := ⟨[("rt/storage/h", [1, 2])]⟩, nextId := 2 }

/-- Counterexample to C4 as stated: after the last-reference delete the
physical bytes are still present at the blob's storage path — the handler
performs no physical removal. -/
theorem deleteFile_last_reference_cex :
    (deleteFile stDelLast 1 1).2 = .ok 2 2 ∧
    findHashById (deleteFile stDelLast 1 1).1.db.hashes 0 = none ∧
    diskHas (deleteFile stDelLast 1 1).1.disk (pathJoin "rt" "storage/h") = true ∧
    (deleteFile stDelLast 1 1).1.disk = stDelLast.disk := by decide

theorem deleteFile_last_reference_witness :
    (deleteFile stDelLast 1 1).2 = .ok 2 2 ∧
    findHashById (deleteFile stDelLast 1 1).1.db.hashes 0 = none ∧
    (deleteFile stDelLast 1 1).1.disk = stDelLast.disk := by
  have h := deleteFile_last_reference stDelLast 1 1 ⟨1, 2, 0, 1, false⟩
    ⟨0, "h", 2, "storage/h", 1⟩ ⟨100, 2, 2, 2, 0⟩
    (by decide) (by decide) (by decide) (by decide) (by decide)
  simpa using h

/-! ## Claim C5 -/

/-- C5: deleting a file whose blob has `referenceCount = 2` beforehand leaves
the blob row with count 1, reports zero freed bytes alongside the logical
size, charges nothing back against `actualStorage`, and leaves the physical
blob untouched. -/
theorem deleteFile_shared_reference (st : State) (uid fid : Nat)
    (f : FileRec) (r : FileHash) (u : UserAcct)
    (hf : findLiveFile st.db.files fid uid = some f)
    (hr : findHashById st.db.hashes f.fileHashID = some r)
    (hrc : r.referenceCount = 2)
    (hu : lookupUser st.db.users uid = some u) :
    (deleteFile st uid fid).2 = .ok 0 f.size ∧
    findHashById (deleteFile st uid fid).1.db.hashes f.fileHashID =
      some { r with referenceCount := 1 } ∧
    (deleteFile st uid fid).1.disk = st.disk ∧
    (∃ u2, lookupUser (deleteFile st uid fid).1.db.users uid = some u2 ∧
      u2.actualStorageBytes = u.actualStorageBytes) := by
  have hid : r.id = f.fileHashID := findHashById_key _ _ _ hr
  unfold deleteFile
  simp only [hf, hr, hu, hrc]
  have h21 : ¬ ((2 : Int) - 1 ≤ 0) := by norm_num
  rw [if_neg h21, if_neg h21]
  refine ⟨rfl, ?_, trivial, ?_⟩
  · rw [findHashById_setRefCountById, hr]
    norm_num
  · exact ⟨_, lookupUser_updateUser _ _ _ _ hu, by simp⟩

/-- Concrete shared-reference delete: two files for one blob. -/
def stDelShared : State :=
  { db := { hashes := [⟨0, "h", 2, "storage/h", 2⟩],
            files := [⟨1, 2, 0, 1, false⟩, ⟨2, 2, 0, 1, false⟩],
            users := [(1, ⟨100, 4, 4, 2, 2⟩)] },
    disk := ⟨[("rt/storage/h", [1, 2])]⟩, nextId := 3 }

theorem deleteFile_shared_reference_witness :
    (deleteFile stDelShared 1 1).2 = .ok 0 2 ∧
    findHashById (deleteFile stDelShared 1 1).1.db.hashes 0 =
      some ⟨0, "h", 2, "storage/h", 1⟩ ∧
    (deleteFile stDelShared 1 1).1.disk = stDelShared.disk ∧
    (∃ u2, lookupUser (deleteFile stDelShared 1 1).1.db.users 1 = some u2 ∧
      u2.actualStorageBytes = (2 : Int)) := by
  have h := deleteFile_shared_reference stDelShared 1 1 ⟨1, 2, 0, 1, false⟩
    ⟨0, "h", 2, "storage/h", 2⟩ ⟨100, 4, 4, 2, 2⟩
    (by decide) (by decide) (by decide) (by decide)
  simpa using h

/-! ## Claim C6 -/

/-- Concrete state containing a blob row whose `referenceCount` is already
zero while a live file record still points at it. -/
def stUnderflow : State :=
  { db := { hashes := [⟨3, "h", 5, "storage/h", 0⟩],
            files := [⟨10, 5, 3, 1, false⟩],
            users := [(1, ⟨100, 5, 5, 5, 0⟩)] },
    disk := ⟨[]⟩, nextId := 20 }

/-- C6: the delete handler has no underflow guard — on a blob whose
`referenceCount` is already 0 it still applies the decrement, silently drops
the row (the new count `-1` passes the `<= 0` test), and reports success
instead of surfacing a `ReferenceUnderflow` error. -/
theorem deleteFile_zero_refcount_unguarded :
    (deleteFile stUnderflow 1 10).2 = .ok 5 5 ∧
    (deleteFile stUnderflow 1 10).1.db.hashes = [] := by decide

/-! ## Upload-path structural lemmas -/

theorem uploadFile_fresh_eq (hashFn : Content → Digest) (root : String)
    (st : State) (uid : Nat) (b : Content) (u : UserAcct)
    (hu : lookupUser st.db.users uid = some u)
    (hq : ¬ u.storageQuota < u.storageUsed + (b.length : Int))
    (hnone : findHashByDigest st.db.hashes (hashFn b) = none) :
    uploadFile hashFn root st uid b true =
      ({ db := { hashes := st.db.hashes ++
                   [{ id := st.nextId, hash := hashFn b,
                      size := (b.length : Int),
                      storagePath := storagePathFor (hashFn b),
                      referenceCount := 1 }],
                 files := st.db.files ++
                   [{ id := st.nextId + 1, size := (b.length : Int),
                      fileHashID := st.nextId, ownerID := uid,
                      isDeleted := false }],
                 users := updateUser st.db.users uid
                   { u with
                     totalUploadedBytes :=
                       u.totalUploadedBytes + (b.length : Int),
                     actualStorageBytes :=
                       u.actualStorageBytes + (b.length : Int),
                     storageUsed := u.storageUsed + (b.length : Int),
                     savedBytes := u.savedBytes + 0 } },
         disk := st.disk.write (pathJoin root (storagePathFor (hashFn b))) b,
         nextId := st.nextId + 2 },
       .ok { fileId := st.nextId + 1, isDuplicate := false, savedBytes := 0 }) := by
  unfold uploadFile
  simp only [hu, hq, if_false, ite_false]
  unfold processFileUpload
  simp only [hnone, if_true, ite_true, hu]
  rfl

theorem uploadFile_dup_eq (hashFn : Content → Digest) (root : String)
    (st : State) (uid : Nat) (b : Content) (u : UserAcct) (fh : FileHash)
    (hu : lookupUser st.db.users uid = some u)
    (hq : ¬ u.storageQuota < u.storageUsed + (b.length : Int))
    (hsome : findHashByDigest st.db.hashes (hashFn b) = some fh) :
    uploadFile hashFn root st uid b true =
      ({ db := { hashes := bumpRefCountById st.db.hashes fh.id,
                 files := st.db.files ++
                   [{ id := st.nextId, size := (b.length : Int),
                      fileHashID := fh.id, ownerID := uid,
                      isDeleted := false }],
                 users := updateUser st.db.users uid
                   { u with
                     totalUploadedBytes :=
                       u.totalUploadedBytes + (b.length : Int),
                     actualStorageBytes := u.actualStorageBytes + 0,
                     storageUsed := u.storageUsed + 0,
                     savedBytes := u.savedBytes + (b.length : Int) } },
         disk := st.disk,
         nextId := st.nextId + 1 },
       .ok { fileId := st.nextId, isDuplicate := true,
             savedBytes := (b.length : Int) }) := by
  unfold uploadFile
  simp only [hu, hq, if_false, ite_false]
  unfold processFileUpload
  simp only [hsome, if_true, ite_true, hu]
  rfl

theorem uploadFile_fresh_fail_eq (hashFn : Content → Digest) (root : String)
    (st : State) (uid : Nat) (b : Content) (u : UserAcct)
    (hu : lookupUser st.db.users uid = some u)
    (hq : ¬ u.storageQuota < u.storageUsed + (b.length : Int))
    (hnone : findHashByDigest st.db.hashes (hashFn b) = none) :
    uploadFile hashFn root st uid b false =
      ({ db := st.db,
         disk := st.disk.write (pathJoin root (storagePathFor (hashFn b))) b,
         nextId := st.nextId + 1 }, .failed) := by
  unfold uploadFile
  simp only [hu, hq, if_false, ite_false]
  unfold processFileUpload
  simp only [hnone, if_true, ite_true]
  rfl

theorem uploadFile_dup_fail_eq (hashFn : Content → Digest) (root : String)
    (st : State) (uid : Nat) (b : Content) (u : UserAcct) (fh : FileHash)
    (hu : lookupUser st.db.users uid = some u)
    (hq : ¬ u.storageQuota < u.storageUsed + (b.length : Int))
    (hsome : findHashByDigest st.db.hashes (hashFn b) = some fh) :
    uploadFile hashFn root st uid b false =
      ({ db := st.db, disk := st.disk, nextId := st.nextId }, .failed) := by
  unfold uploadFile
  simp only [hu, hq, if_false, ite_false]
  unfold processFileUpload
  simp only [hsome, if_true, ite_true]
  rfl

/-! ## Shared concrete instances for upload scenarios -/

/-- Concrete digest function for witnesses (only one content is in play). -/
def hfW : Content → Digest := fun _ => "h"

/-- Initial state: empty store, two owners with quota 100. -/
def stW0 : State :=
  { db := { hashes := [], files := [],
            users := [(1, ⟨100, 0, 0, 0, 0⟩), (2, ⟨100, 0, 0, 0, 0⟩)] },
    disk := ⟨[]⟩, nextId := 0 }

/-- State after owner 1 uploads the two-byte content `[1, 2]`. -/
def stW1 : State := (uploadFile hfW "rt" stW0 1 [1, 2] true).1

/-! ## Claim C2 -/

/-- C2: an upload of content with no prior blob reports `isDuplicate = false`
and `bytesSaved = 0` and adds the full size to the uploader's
`actualStorage` and `used`; an upload of already-present content reports
`isDuplicate = true` with `bytesSaved` equal to the size credited to the
uploader's `saved` counter, and leaves `actualStorage` (and `used`)
unchanged. -/
theorem upload_dedup_accounting (hashFn : Content → Digest) (root : String)
    (st1 st2 : State) (uidA uidB : Nat) (b : Content) (uA uB : UserAcct)
    (fh : FileHash)
    (hA : lookupUser st1.db.users uidA = some uA)
    (hqA : ¬ uA.storageQuota < uA.storageUsed + (b.length : Int))
    (hnone : findHashByDigest st1.db.hashes (hashFn b) = none)
    (hB : lookupUser st2.db.users uidB = some uB)
    (hqB : ¬ uB.storageQuota < uB.storageUsed + (b.length : Int))
    (hsome : findHashByDigest st2.db.hashes (hashFn b) = some fh) :
    (∃ res, (uploadFile hashFn root st1 uidA b true).2 = .ok res ∧
      res.isDuplicate = false ∧ res.savedBytes = 0) ∧
    (∃ uA2, lookupUser (uploadFile hashFn root st1 uidA b true).1.db.users uidA
        = some uA2 ∧
      uA2.actualStorageBytes = uA.actualStorageBytes + (b.length : Int) ∧
      uA2.storageUsed = uA.storageUsed + (b.length : Int) ∧
      uA2.totalUploadedBytes = uA.totalUploadedBytes + (b.length : Int) ∧
      uA2.savedBytes = uA.savedBytes) ∧
    (∃ res, (uploadFile hashFn root st2 uidB b true).2 = .ok res ∧
      res.isDuplicate = true ∧ res.savedBytes = (b.length : Int)) ∧
    (∃ uB2, lookupUser (uploadFile hashFn root st2 uidB b true).1.db.users uidB
        = some uB2 ∧
      uB2.actualStorageBytes = uB.actualStorageBytes ∧
      uB2.storageUsed = uB.storageUsed ∧
      uB2.totalUploadedBytes = uB.totalUploadedBytes + (b.length : Int) ∧
      uB2.savedBytes = uB.savedBytes + (b.length : Int)) := by
  rw [uploadFile_fresh_eq hashFn root st1 uidA b uA hA hqA hnone,
      uploadFile_dup_eq hashFn root st2 uidB b uB fh hB hqB hsome]
  exact ⟨⟨_, rfl, rfl, rfl⟩,
         ⟨_, lookupUser_updateUser _ _ _ _ hA, by simp, by simp, by simp, by simp⟩,
         ⟨_, rfl, rfl, rfl⟩,
         ⟨_, lookupUser_updateUser _ _ _ _ hB, by simp, by simp, by simp, by simp⟩⟩

theorem upload_dedup_accounting_witness :
    (∃ res, (uploadFile hfW "rt" stW0 1 [1, 2] true).2 = .ok res ∧
      res.isDuplicate = false ∧ res.savedBytes = 0) ∧
    (∃ uA2, lookupUser (uploadFile hfW "rt" stW0 1 [1, 2] true).1.db.users 1
        = some uA2 ∧
      uA2.actualStorageBytes = 2 ∧ uA2.storageUsed = 2 ∧
      uA2.totalUploadedBytes = 2 ∧ uA2.savedBytes = 0) ∧
    (∃ res, (uploadFile hfW "rt" stW1 2 [1, 2] true).2 = .ok res ∧
      res.isDuplicate = true ∧ res.savedBytes = 2) ∧
    (∃ uB2, lookupUser (uploadFile hfW "rt" stW1 2 [1, 2] true).1.db.users 2
        = some uB2 ∧
      uB2.actualStorageBytes = 0 ∧ uB2.storageUsed = 0 ∧
      uB2.totalUploadedBytes = 2 ∧ uB2.savedBytes = 2) := by
  have h := upload_dedup_accounting hfW "rt" stW0 stW1 1 2 [1, 2]
    ⟨100, 0, 0, 0, 0⟩ ⟨100, 0, 0, 0, 0⟩ ⟨0, "h", 2, "storage/h", 1⟩
    (by decide) (by decide) (by decide) (by decide) (by decide) (by decide)
  simpa using h

/-! ## Claim C3 -/

/-- Concrete state for the quota check: content of size 3 is already stored
server-wide, and the owner has quota 2 with 0 bytes used. -/
def stQuota : State :=
  { db := { hashes := [⟨0, "h", 3, "storage/h", 1⟩], files := [],
            users := [(1, ⟨2, 0, 0, 0, 0⟩)] },
    disk := ⟨[("rt/storage/h", [0, 0, 0])]⟩, nextId := 5 }

/-- Counterexample to C3 as stated: the content already exists, so per the
claim `chargedBytes = 0` and `used + 0 <= quota` holds, yet `UploadFile`
rejects the upload with a quota error because its check uses the logical
size. -/
theorem upload_quota_logical_cex :
    lookupUser stQuota.db.users 1 = some ⟨2, 0, 0, 0, 0⟩ ∧
    findHashByDigest stQuota.db.hashes (hfW [0, 0, 0]) ≠ none ∧
    (uploadFile hfW "rt" stQuota 1 [0, 0, 0] true).2 = .quotaRejected := by
  decide

/-- C3 (amended): an upload is rejected with a quota error iff
`used + size > quota` where `size` is the logical size of the content,
regardless of whether the content already exists; in particular a
deduplicated upload whose logical size exceeds the remaining quota is
rejected. -/
theorem upload_quota_check_logical_size (hashFn : Content → Digest)
    (root : String) (st : State) (uid : Nat) (b : Content) (recordOk : Bool)
    (u : UserAcct) (hu : lookupUser st.db.users uid = some u) :
    (uploadFile hashFn root st uid b recordOk).2 = .quotaRejected ↔
      u.storageQuota < u.storageUsed + (b.length : Int) := by
  unfold uploadFile
  simp only [hu]
  by_cases hq : u.storageQuota < u.storageUsed + (b.length : Int)
  · simp [hq]
  · rw [if_neg hq]
    cases hp : processFileUpload hashFn root st uid b recordOk with
    | err st2 => simp [hq]
    | ok st2 res sb au =>
      cases hl : lookupUser st2.db.users uid <;> simp [hl, hq]

theorem upload_quota_check_logical_size_witness :
    (uploadFile hfW "rt" stQuota 1 [0, 0, 0] true).2 = .quotaRejected :=
  (upload_quota_check_logical_size hfW "rt" stQuota 1 [0, 0, 0] true
    ⟨2, 0, 0, 0, 0⟩ (by decide)).mpr (by decide)

/-! ## Claim C7 -/

/-- Counterexample to C7 as stated: after a failed record creation for new
content, the enclosing rollback restores the database but the just-written
physical bytes remain on disk as visible partial state; and for a duplicate
upload the failure path applies no compensating decrement at all — the
failure-time transaction state still carries the incremented count 2. -/
theorem upload_record_failure_partial_state_cex :
    (uploadFile hfW "rt" stW0 1 [1, 2] false).2 = .failed ∧
    (uploadFile hfW "rt" stW0 1 [1, 2] false).1.db = stW0.db ∧
    entriesAt (uploadFile hfW "rt" stW0 1 [1, 2] false).1.disk
      (pathJoin "rt" (storagePathFor "h")) =
      [(pathJoin "rt" (storagePathFor "h"), [1, 2])] ∧
    (procErrState (processFileUpload hfW "rt" stW1 2 [1, 2] false)).map
      (fun s => s.db.hashes.map (fun r => r.referenceCount)) = some [2] := by
  decide

/-- C7 (amended): when persisting the file record fails, the transaction
rollback leaves the database exactly as before the attempt, but no physical
compensation happens: for new content the just-written bytes stay on disk,
and for duplicate content the in-transaction compensation applies no
decrement (the rollback alone undoes the increment). -/
theorem upload_record_failure_rollback (hashFn : Content → Digest)
    (root : String) (st : State) (uid : Nat) (b : Content) (u : UserAcct)
    (hu : lookupUser st.db.users uid = some u)
    (hq : ¬ u.storageQuota < u.storageUsed + (b.length : Int)) :
    (findHashByDigest st.db.hashes (hashFn b) = none →
      (uploadFile hashFn root st uid b false).2 = .failed ∧
      (uploadFile hashFn root st uid b false).1.db = st.db ∧
      (uploadFile hashFn root st uid b false).1.disk =
        st.disk.write (pathJoin root (storagePathFor (hashFn b))) b) ∧
    (∀ fh, findHashByDigest st.db.hashes (hashFn b) = some fh →
      (uploadFile hashFn root st uid b false).2 = .failed ∧
      (uploadFile hashFn root st uid b false).1.db = st.db ∧
      (uploadFile hashFn root st uid b false).1.disk = st.disk) := by
  constructor
  · intro hnone
    rw [uploadFile_fresh_fail_eq hashFn root st uid b u hu hq hnone]
    exact ⟨rfl, rfl, rfl⟩
  · intro fh hsome
    rw [uploadFile_dup_fail_eq hashFn root st uid b u fh hu hq hsome]
    exact ⟨rfl, rfl, rfl⟩

theorem upload_record_failure_rollback_witness :
    (uploadFile hfW "rt" stW0 1 [1, 2] false).2 = .failed ∧
    (uploadFile hfW "rt" stW0 1 [1, 2] false).1.db = stW0.db ∧
    (uploadFile hfW "rt" stW0 1 [1, 2] false).1.disk =
      stW0.disk.write (pathJoin "rt" (storagePathFor (hfW [1, 2]))) [1, 2] :=
  (upload_record_failure_rollback hfW "rt" stW0 1 [1, 2] ⟨100, 0, 0, 0, 0⟩
    (by decide) (by decide)).1 (by decide)

/-! ## Claim C8 -/

/-- Counterexample to C8 as stated: the identity
`saved = totalUploaded - actualStorage` holds after the upload, but a
completed delete that frees physical storage breaks it (the delete adjusts
`actualStorage` without touching `saved` or `totalUploaded`). -/
theorem ledger_saved_identity_cex :
    (lookupUser stW1.db.users 1).map
      (fun u => decide
        (u.savedBytes = u.totalUploadedBytes - u.actualStorageBytes)) =
      some true ∧
    (deleteFile stW1 1 1).2 = .ok 2 2 ∧
    (lookupUser (deleteFile stW1 1 1).1.db.users 1).map
      (fun u => decide
        (u.savedBytes = u.totalUploadedBytes - u.actualStorageBytes)) =
      some false := by
  decide

/-- C8 (amended): every completed upload preserves the ledger identity
`saved = totalUploaded - actualStorage`; a completed delete shifts it by
exactly the freed bytes — afterwards
`saved = totalUploaded - actualStorage - bytesFreed`, so the identity
survives a delete only when no physical storage was freed. -/
theorem ledger_saved_identity_amended (hashFn : Content → Digest)
    (root : String) (stUp stDel : State) (uidU uidD fid : Nat) (b : Content)
    (uU uD : UserAcct) (res : UploadResult) (freed lfreed : Int)
    (huU : lookupUser stUp.db.users uidU = some uU)
    (hidU : uU.savedBytes = uU.totalUploadedBytes - uU.actualStorageBytes)
    (hok : (uploadFile hashFn root stUp uidU b true).2 = .ok res)
    (huD : lookupUser stDel.db.users uidD = some uD)
    (hidD : uD.savedBytes = uD.totalUploadedBytes - uD.actualStorageBytes)
    (hdel : (deleteFile stDel uidD fid).2 = .ok freed lfreed) :
    (∃ u2, lookupUser (uploadFile hashFn root stUp uidU b true).1.db.users uidU
        = some u2 ∧
      u2.savedBytes = u2.totalUploadedBytes - u2.actualStorageBytes) ∧
    (∃ u2, lookupUser (deleteFile stDel uidD fid).1.db.users uidD = some u2 ∧
      u2.savedBytes = u2.totalUploadedBytes - u2.actualStorageBytes - freed) := by
  constructor
  · by_cases hq : uU.storageQuota < uU.storageUsed + (b.length : Int)
    · exfalso
      have hrej : (uploadFile hashFn root stUp uidU b true).2 = .quotaRejected := by
        unfold uploadFile
        simp [huU, hq]
      rw [hrej] at hok
      simp at hok
    · cases hfind : findHashByDigest stUp.db.hashes (hashFn b) with
      | none =>
        rw [uploadFile_fresh_eq hashFn root stUp uidU b uU huU hq hfind]
        refine ⟨_, lookupUser_updateUser _ _ _ _ huU, ?_⟩
        dsimp only
        omega
      | some fh =>
        rw [uploadFile_dup_eq hashFn root stUp uidU b uU fh huU hq hfind]
        refine ⟨_, lookupUser_updateUser _ _ _ _ huU, ?_⟩
        dsimp only
        omega
  · unfold deleteFile at hdel ⊢
    cases hff : findLiveFile stDel.db.files fid uidD with
    | none =>
      rw [hff] at hdel
      simp at hdel
    | some f =>
      simp only [hff] at hdel ⊢
      cases hfh : findHashById stDel.db.hashes f.fileHashID with
      | none =>
        rw [hfh] at hdel
        simp at hdel
      | some r =>
        simp only [hfh, huD] at hdel ⊢
        injection hdel with hfr hlf
        refine ⟨_, lookupUser_updateUser _ _ _ _ huD, ?_⟩
        dsimp only
        rw [hfr]
        omega

/-! ## Claim C1: blob invariant lemmas -/

theorem hashRowsFor_bumpRefCountById (hs : List FileHash) (i : Nat)
    (d : Digest) :
    hashRowsFor (bumpRefCountById hs i) d =
      (hashRowsFor hs d).map
        (fun x => if x.id == i
          then { x with referenceCount := x.referenceCount + 1 } else x) := by
  unfold hashRowsFor bumpRefCountById
  exact filter_map_of_pred_inv _ _
    (fun x => by by_cases h : (x.id == i) = true <;> simp [h]) hs

theorem uploadFile_ok_new_blob (hashFn : Content → Digest) (root : String)
    (st st2 : State) (uid : Nat) (b : Content) (res : UploadResult)
    (hfresh : IdsFresh st)
    (hnone : hashRowsFor st.db.hashes (hashFn b) = [])
    (hrun : uploadFile hashFn root st uid b true = (st2, .ok res)) :
    BlobInv hashFn root b st2 1 := by
  unfold hashRowsFor at hnone
  have hfind : findHashByDigest st.db.hashes (hashFn b) = none := by
    unfold findHashByDigest
    exact List.find?_eq_none.mpr (List.filter_eq_nil_iff.mp hnone)
  cases hu : lookupUser st.db.users uid with
  | none =>
    unfold uploadFile at hrun
    simp only [hu] at hrun
    simp at hrun
  | some u =>
    by_cases hq : u.storageQuota < u.storageUsed + (b.length : Int)
    · unfold uploadFile at hrun
      simp only [hu, hq, if_true, ite_true] at hrun
      simp at hrun
    · rw [uploadFile_fresh_eq hashFn root st uid b u hu hq hfind] at hrun
      injection hrun with h1 h2
      subst h1
      refine ⟨{ id := st.nextId, hash := hashFn b, size := (b.length : Int),
                storagePath := storagePathFor (hashFn b), referenceCount := 1 },
              ?_, rfl, rfl, ?_, ?_⟩
      · show (st.db.hashes ++ [_]).filter _ = _
        rw [List.filter_append, hnone]
        simp
      · intro r2 hmem hid2
        rcases List.mem_append.mp hmem with hmem1 | hmem2
        · have hlt := hfresh r2 hmem1
          have : r2.id = st.nextId := hid2
          omega
        · simpa using hmem2
      · exact entriesAt_write_self st.disk _ b

theorem uploadFile_ok_bump_blob (hashFn : Content → Digest) (root : String)
    (st st2 : State) (uid : Nat) (b : Content) (res : UploadResult) (n : Int)
    (hinv : BlobInv hashFn root b st n)
    (hrun : uploadFile hashFn root st uid b true = (st2, .ok res)) :
    BlobInv hashFn root b st2 (n + 1) := by
  obtain ⟨r, hfil, hrc, hsz, huniq, hdisk⟩ := hinv
  have hfind : findHashByDigest st.db.hashes (hashFn b) = some r := by
    unfold findHashByDigest
    unfold hashRowsFor at hfil
    exact find?_of_filter_eq_singleton _ _ _ hfil
  cases hu : lookupUser st.db.users uid with
  | none =>
    unfold uploadFile at hrun
    simp only [hu] at hrun
    simp at hrun
  | some u =>
    by_cases hq : u.storageQuota < u.storageUsed + (b.length : Int)
    · unfold uploadFile at hrun
      simp only [hu, hq, if_true, ite_true] at hrun
      simp at hrun
    · rw [uploadFile_dup_eq hashFn root st uid b u r hu hq hfind] at hrun
      injection hrun with h1 h2
      subst h1
      refine ⟨{ r with referenceCount := r.referenceCount + 1 },
              ?_, by dsimp only; omega, hsz, ?_, hdisk⟩
      · show hashRowsFor (bumpRefCountById st.db.hashes r.id) (hashFn b) = _
        rw [hashRowsFor_bumpRefCountById, hfil]
        simp
      · intro r2 hmem hid2
        have hmem2 : r2 ∈ bumpRefCountById st.db.hashes r.id := hmem
        unfold bumpRefCountById at hmem2
        rcases List.mem_map.mp hmem2 with ⟨y, hy, hgy⟩
        have hyid : r2.id = y.id := by
          rw [← hgy]
          by_cases h : (y.id == r.id) = true <;> simp [h]
        have hid3 : r2.id = r.id := hid2
        have hyr : y = r := huniq y hy (by omega)
        rw [← hgy, hyr]
        simp

theorem uploadManyOk_bump (hashFn : Content → Digest) (root : String)
    (b : Content) :
    ∀ (owners : List Nat) (st stN : State) (n : Int),
      BlobInv hashFn root b st n →
      uploadManyOk hashFn root b st owners = some stN →
      BlobInv hashFn root b stN (n + owners.length) := by
  intro owners
  induction owners with
  | nil =>
    intro st stN n hinv h
    simp only [uploadManyOk, Option.some.injEq] at h
    subst h
    simpa using hinv
  | cons uid rest ih =>
    intro st stN n hinv h
    rcases hstep : uploadFile hashFn root st uid b true with ⟨st2, out⟩
    cases out with
    | ok res =>
      simp only [uploadManyOk, hstep] at h
      have hinv2 := uploadFile_ok_bump_blob hashFn root st st2 uid b res n
        hinv hstep
      have hrec := ih st2 stN (n + 1) hinv2 h
      have hlen : (n + 1) + (rest.length : Int) =
          n + (((uid :: rest).length : Nat) : Int) := by
        simp only [List.length_cons]
        push_cast
        ring
      rwa [hlen] at hrec
    | userNotFound =>
      simp only [uploadManyOk, hstep] at h
      simp at h
    | quotaRejected =>
      simp only [uploadManyOk, hstep] at h
      simp at h
    | failed =>
      simp only [uploadManyOk, hstep] at h
      simp at h

/-- C1: after a nonempty sequence of successful uploads of byte-identical
content `b` by any owners, exactly one blob row exists for `hash(b)`, its
`referenceCount` equals the number of uploads, and exactly one physical copy
of `b` (hence of size `s = b.length`) sits in the store at the digest-derived
path. -/
theorem upload_single_physical_copy (hashFn : Content → Digest)
    (root : String) (st0 stN : State) (b : Content) (owners : List Nat)
    (hfresh : IdsFresh st0)
    (hnone : hashRowsFor st0.db.hashes (hashFn b) = [])
    (hne : owners ≠ [])
    (hrun : uploadManyOk hashFn root b st0 owners = some stN) :
    ∃ r : FileHash,
      hashRowsFor stN.db.hashes (hashFn b) = [r] ∧
      r.referenceCount = (owners.length : Int) ∧
      r.size = (b.length : Int) ∧
      entriesAt stN.disk (pathJoin root (storagePathFor (hashFn b))) =
        [(pathJoin root (storagePathFor (hashFn b)), b)] := by
  cases owners with
  | nil => exact absurd rfl hne
  | cons uid rest =>
    rcases hstep : uploadFile hashFn root st0 uid b true with ⟨st2, out⟩
    cases out with
    | ok res =>
      simp only [uploadManyOk, hstep] at hrun
      have hinv1 := uploadFile_ok_new_blob hashFn root st0 st2 uid b res
        hfresh hnone hstep
      have hinvN := uploadManyOk_bump hashFn root b rest st2 stN 1 hinv1 hrun
      obtain ⟨r, h1, h2, h3, _, h5⟩ := hinvN
      refine ⟨r, h1, ?_, h3, h5⟩
      rw [h2]
      simp only [List.length_cons]
      push_cast
      ring
    | userNotFound =>
      simp only [uploadManyOk, hstep] at hrun
      simp at hrun
    | quotaRejected =>
      simp only [uploadManyOk, hstep] at hrun
      simp at hrun
    | failed =>
      simp only [uploadManyOk, hstep] at hrun
      simp at hrun

/-- State reached by the two-owner upload sequence of content `[1, 2]`. -/
def stSeq : State := (uploadManyOk hfW "rt" [1, 2] stW0 [1, 2]).getD stW0

theorem upload_single_physical_copy_witness :
    ∃ r : FileHash,
      hashRowsFor stSeq.db.hashes (hfW [1, 2]) = [r] ∧
      r.referenceCount = 2 ∧
      r.size = 2 ∧
      entriesAt stSeq.disk (pathJoin "rt" (storagePathFor (hfW [1, 2]))) =
        [(pathJoin "rt" (storagePathFor (hfW [1, 2])), [1, 2])] := by
  have h := upload_single_physical_copy hfW "rt" stW0 stSeq [1, 2] [1, 2]
    (by unfold IdsFresh; decide) (by decide) (by decide) (by decide)
  simpa using h

theorem ledger_saved_identity_witness :
    (∃ u2, lookupUser (uploadFile hfW "rt" stW0 1 [1, 2] true).1.db.users 1
        = some u2 ∧
      u2.savedBytes = u2.totalUploadedBytes - u2.actualStorageBytes) ∧
    (∃ u2, lookupUser (deleteFile stW1 1 1).1.db.users 1 = some u2 ∧
      u2.savedBytes = u2.totalUploadedBytes - u2.actualStorageBytes - 2) :=
  ledger_saved_identity_amended hfW "rt" stW0 stW1 1 1 1 [1, 2]
    ⟨100, 0, 0, 0, 0⟩ ⟨100, 2, 2, 2, 0⟩ ⟨1, false, 0⟩ 2 2
    (by decide) (by decide) (by decide) (by decide) (by decide) (by decide)

end FileFoundry
